import Mathlib

/-!
Verification of the streamforge ingestion core (Bybit/Binance candle
pipeline) against its natural-language specification.

The Python sources under `src/streamforge` are shallowly embedded below:
pure functions become Lean functions, in-place dict mutation becomes
explicit state passing (the mutated value is returned alongside the
result), fallible code returns `Except`.  Machine floats carrying prices
and volumes are modelled as rationals.  Classes of the repository that are
not shipped under `src/` (the canonical `Kline` record, buffers, the
timeframe classes) are modelled from the specification and marked as such.
-/

namespace StreamForge

/-- Equality on `Except` results (raised exception or returned value) is
decidable when it is on both components. -/
instance exceptDecEq {ε α : Type} [DecidableEq ε] [DecidableEq α] :
    DecidableEq (Except ε α) := fun x y =>
  match x, y with
  | .ok a, .ok b =>
    if h : a = b then isTrue (by rw [h]) else
      isFalse (by intro hc; cases hc; exact h rfl)
  | .error e, .error f =>
    if h : e = f then isTrue (by rw [h]) else
      isFalse (by intro hc; cases hc; exact h rfl)
  | .ok _, .error _ => isFalse (by intro hc; cases hc)
  | .error _, .ok _ => isFalse (by intro hc; cases hc)

/-! ## Decimal digit count and timestamp precision
Source: `src/streamforge/ingestion/bybit/normalizers/util.py`. -/

/-- Decimal digit count of a natural number: the value of Python's
`len(str(timestamp))` for a non-negative `timestamp`.  (`Nat.log 10 n + 1`
equals the number of decimal digits of `n`, also for `n = 0`.) -/
def numDigits (n : Nat) : Nat := Nat.log 10 n + 1

/-- `get_timestamp_precision` from `bybit/normalizers/util.py`: the divisor
that reduces an integer timestamp to seconds, chosen by digit count
(10 digits → 1, 13 → 10^3, 16 → 10^6, otherwise a heuristic). -/
def get_timestamp_precision (timestamp : Nat) : Nat :=
  let digit_count := numDigits timestamp
  if digit_count = 10 then 1
  else if digit_count = 13 then 1000
  else if digit_count = 16 then 1000000
  else if 16 ≤ digit_count then 1000000
  else if 13 ≤ digit_count then 1000
  else 1

lemma numDigits_eq_of_range {n d : Nat} (h1 : 10 ^ d ≤ n) (h2 : n < 10 ^ (d + 1)) :
    numDigits n = d + 1 := by
  unfold numDigits
  rw [Nat.log_eq_of_pow_le_of_lt_pow h1 h2]

lemma get_timestamp_precision_seconds {n : Nat} (h1 : 10 ^ 9 ≤ n) (h2 : n < 10 ^ 10) :
    get_timestamp_precision n = 1 := by
  unfold get_timestamp_precision
  rw [numDigits_eq_of_range h1 h2]
  norm_num

lemma get_timestamp_precision_millis {n : Nat} (h1 : 10 ^ 12 ≤ n) (h2 : n < 10 ^ 13) :
    get_timestamp_precision n = 1000 := by
  unfold get_timestamp_precision
  rw [numDigits_eq_of_range h1 h2]
  norm_num

lemma get_timestamp_precision_micros {n : Nat} (h1 : 10 ^ 15 ≤ n) (h2 : n < 10 ^ 16) :
    get_timestamp_precision n = 1000000 := by
  unfold get_timestamp_precision
  rw [numDigits_eq_of_range h1 h2]
  norm_num

/-- `adjust_binance_timestamps` from `binance/normalizers/util.py`: both the
`t` and `T` fields are divided by 1000 unconditionally (Python `// 1000`). -/
def adjust_binance_timestamps (t T : Nat) : Nat × Nat := (t / 1000, T / 1000)

/-! ## Bybit timeframe tables
Source: `src/streamforge/ingestion/bybit/util.py`. -/

/-- `TIMEFRAME_TO_BYBIT_MAP` (dict lookup modelled as a partial map). -/
def TIMEFRAME_TO_BYBIT_MAP : String → Option String
  | "1m" => some "1"
  | "3m" => some "3"
  | "5m" => some "5"
  | "15m" => some "15"
  | "30m" => some "30"
  | "1h" => some "60"
  | "2h" => some "120"
  | "4h" => some "240"
  | "1d" => some "D"
  | "1w" => some "W"
  | "1M" => some "M"
  | _ => none

/-- `BYBIT_TO_TIMEFRAME_MAP`. -/
def BYBIT_TO_TIMEFRAME_MAP : String → Option String
  | "1" => some "1m"
  | "3" => some "3m"
  | "5" => some "5m"
  | "15" => some "15m"
  | "30" => some "30m"
  | "60" => some "1h"
  | "120" => some "2h"
  | "240" => some "4h"
  | "D" => some "1d"
  | "W" => some "1w"
  | "M" => some "1M"
  | _ => none

/-- `TIMEFRAME_TO_MINUTES_MAP`; note it has no entries for `1w` or `1M`. -/
def TIMEFRAME_TO_MINUTES_MAP : String → Option Nat
  | "1m" => some 1
  | "3m" => some 3
  | "5m" => some 5
  | "15m" => some 15
  | "30m" => some 30
  | "1h" => some 60
  | "2h" => some 120
  | "4h" => some 240
  | "1d" => some 1440
  | _ => none

/-- `get_timeframe_seconds`: `TIMEFRAME_TO_MINUTES_MAP.get(timeframe, 1) * 60`. -/
def get_timeframe_seconds (timeframe : String) : Nat :=
  (TIMEFRAME_TO_MINUTES_MAP timeframe).getD 1 * 60

/-- Python's `str.lower()` restricted to what the code applies it to:
character-wise lower-casing. -/
def str_lower (s : String) : String := ⟨s.data.map Char.toLower⟩

/-- `get_bybit_timeframe`:
`TIMEFRAME_TO_BYBIT_MAP.get(streamforge_timeframe.lower(), streamforge_timeframe)`. -/
def get_bybit_timeframe (streamforge_timeframe : String) : String :=
  (TIMEFRAME_TO_BYBIT_MAP (str_lower streamforge_timeframe)).getD streamforge_timeframe

/-- `get_streamforge_timeframe`:
`BYBIT_TO_TIMEFRAME_MAP.get(bybit_timeframe, bybit_timeframe)`. -/
def get_streamforge_timeframe (bybit_timeframe : String) : String :=
  (BYBIT_TO_TIMEFRAME_MAP bybit_timeframe).getD bybit_timeframe

/-- Modelled from the spec: duration in seconds of each timeframe of the
enum table (§3 of the specification: `1m=60 … 1d=86400`).  A week is seven
days; a calendar month has no fixed duration, so `1M` is `none`. -/
def spec_duration : String → Option Int
  | "1m" => some 60
  | "3m" => some 180
  | "5m" => some 300
  | "15m" => some 900
  | "30m" => some 1800
  | "1h" => some 3600
  | "2h" => some 7200
  | "4h" => some 14400
  | "1d" => some 86400
  | "1w" => some 604800
  | _ => none

/-! ## String helpers used by the WebSocket routing
Python `"kline" in topic` and `topic.split(".")`, embedded on character
lists so that they evaluate inside the kernel. -/

/-- Python's substring test `needle in hay` on character lists. -/
def hasSubstr (needle : List Char) : List Char → Bool
  | [] => needle.isEmpty
  | c :: rest => needle.isPrefixOf (c :: rest) || hasSubstr needle rest

/-- Python's `str.split(".")` on character lists: split at every dot,
keeping empty groups (`"".split(".") == [""]`). -/
def splitDot : List Char → List (List Char)
  | [] => [[]]
  | c :: cs =>
    let r := splitDot cs
    if c = '.' then [] :: r
    else
      match r with
      | [] => [[c]]
      | g :: gs => (c :: g) :: gs

/-- `topic.split(".")` as a list of strings. -/
def topicSplit (topic : String) : List String :=
  (splitDot topic.data).map (fun l => String.mk l)

/-! ## Canonical data model
Modelled from the spec: the classes `Kline`
(`streamforge.base.normalize.ohlc.models.candle`), `BaseKlineBuffer`
(`streamforge.base.models`) and the timeframe classes
(`streamforge.base.normalize.ohlc.models.timeframes`) are imported by the
sources under `src/` but their modules are not shipped there, so they are
reconstructed from §3 of the specification. -/

/-- Modelled from the spec: the canonical candle record (§3).  Prices and
volumes are rationals (floats in the source); timestamps are integer
seconds; `quote_volume`, `is_closed` and `count` are optional. -/
structure Kline where
  source : String
  symbol : String
  timeframe : String
  open_ts : Int
  end_ts : Int
  «open» : Rat
  high : Rat
  low : Rat
  close : Rat
  volume : Rat
  quote_volume : Option Rat
  is_closed : Option Bool
  count : Option Nat
  deriving Repr, DecidableEq

/-- Modelled from the spec: a per-`(symbol, timeframe)` buffer of recent
candles (§3, "Buffers"), the part of `BaseKlineBuffer` the aggregation
reads (`.symbol` and the ordered `.data` sequence). -/
structure BaseKlineBuffer where
  symbol : String
  data : List Kline
  deriving Repr

/-- Modelled from the spec: a timeframe class as the aggregation uses it —
its string form `string_tf` and its duration in seconds `offset` (§3
timeframe table). -/
structure BaseTimeframe where
  string_tf : String
  offset : Int
  deriving Repr, DecidableEq

/-- The `1m` timeframe class (60 seconds). -/
def tf1m : BaseTimeframe := ⟨"1m", 60⟩

/-- The `5m` timeframe class (300 seconds). -/
def tf5m : BaseTimeframe := ⟨"5m", 300⟩

/-! ## Aggregation
Source: `src/streamforge/ingestion/bybit/processors/aggregate.py` and
`src/streamforge/ingestion/bybit/processors/util.py`. -/

/-- `adjust_timestamp` from `processors/util.py`:
`(timestamp + 1) - offset`. -/
def adjust_timestamp (timestamp offset : Int) : Int :=
  (timestamp + 1) - offset

/-- The loop of `get_first_index`: index of the first buffered candle whose
`open_ts` equals the target timestamp. -/
def get_first_index_aux : List Kline → Int → Option Nat
  | [], _ => none
  | c :: cs, target_ts =>
    if c.open_ts = target_ts then some 0
    else (get_first_index_aux cs target_ts).map (· + 1)

/-- `get_first_index` from `processors/util.py`. -/
def get_first_index (base_data : BaseKlineBuffer) (target_ts : Int) : Option Nat :=
  get_first_index_aux base_data.data target_ts

/-- The initial `candle_base` dict built by `AggregateTF.aggregate` from the
first matching candle (keys `source,s,i,t,T,o,h,l,c,v,q,count`). -/
def agg_init (base_data : BaseKlineBuffer) (timeframe : BaseTimeframe)
    (target_ts ref_timestamp : Int) (first_data : Kline) : Kline :=
  { source := first_data.source
    symbol := base_data.symbol
    timeframe := timeframe.string_tf
    open_ts := target_ts
    end_ts := ref_timestamp
    «open» := first_data.«open»
    high := first_data.high
    low := first_data.low
    close := first_data.close
    volume := first_data.volume
    quote_volume := some (first_data.quote_volume.getD 0)
    is_closed := none
    count := some 1 }

/-- One iteration of the aggregation loop of `AggregateTF.aggregate`:
max/min the extremes, add the volumes (`q or 0` for the quote volume),
take the newest close, increment the count. -/
def agg_step (acc data_point : Kline) : Kline :=
  { acc with
    high := max acc.high data_point.high
    low := min acc.low data_point.low
    volume := acc.volume + data_point.volume
    quote_volume := some (acc.quote_volume.getD 0 + data_point.quote_volume.getD 0)
    close := data_point.close
    count := acc.count.map (· + 1) }

/-- `AggregateTF.aggregate` from `processors/aggregate.py`: find the first
buffered candle at the bucket start `adjust_timestamp ref offset`; if none,
return `none`; otherwise fold the following candles while their `open_ts`
stays below `ref_timestamp` (the Python loop breaks at
`open_ts >= ref_timestamp`). -/
def aggregate (base_data : BaseKlineBuffer) (timeframe : BaseTimeframe)
    (ref_timestamp : Int) : Option Kline :=
  let target_ts := adjust_timestamp ref_timestamp timeframe.offset
  match get_first_index base_data target_ts with
  | none => none
  | some first_index =>
    match base_data.data.drop first_index with
    | [] => none
    | first_data :: later =>
      some ((later.takeWhile (fun d => decide (d.open_ts < ref_timestamp))).foldl
        agg_step (agg_init base_data timeframe target_ts ref_timestamp first_data))

/-! ## Bybit normalizers
Source: `src/streamforge/ingestion/bybit/normalizers/ohlc.py`,
`normalizer.py` and `normalizers/util.py`.  The WebSocket entry mutates the
message dict in place, so the embedded function returns the mutated message
together with the candle; exceptions become `Except.error`. -/

/-- One element of the `data` array of a Bybit kline WebSocket frame, plus
the keys the normalizer writes into the same dict in place (`source`, `s`,
`i`).  Live Bybit v5 frames carry a `timestamp` key that the normalizer
pops; it is optional here because `pop` raises `KeyError` when the key is
absent. -/
structure WsKlineData where
  start : Nat
  «end» : Nat
  interval : String
  «open» : Rat
  high : Rat
  low : Rat
  close : Rat
  volume : Rat
  turnover : Rat
  confirm : Bool
  timestamp? : Option Nat
  source? : Option String
  s? : Option String
  i? : Option String
  deriving Repr, DecidableEq

/-- A Bybit WebSocket message as the normalizer reads it: an optional
`topic` (absent on acks, pongs and heartbeats) and the `data` array. -/
structure BybitWsMessage where
  topic : Option String
  data : List WsKlineData
  deriving Repr, DecidableEq

/-- `adjust_bybit_timestamps` from `normalizers/util.py`: divide `start` and
`end` by the detected precision, then `pop("timestamp")` — a `KeyError`
when the key is absent.  The dict is mutated in place; the updated value is
returned.  (Python performs the divisions before the failing `pop`; since
the divisions cannot fail and the partially mutated dict is not observable
past the exception, checking the key first yields the same `Except`
value.) -/
def adjust_bybit_timestamps (data : WsKlineData) : Except String WsKlineData :=
  let precision := get_timestamp_precision data.start
  match data.timestamp? with
  | none => .error "KeyError: timestamp"
  | some _ =>
    .ok { data with
      start := data.start / precision
      «end» := data.«end» / precision
      timestamp? := none }

/-- Modelled from the spec: building the canonical candle from the adjusted
WebSocket dict (`Kline(**adjust_bybit_timestamps(data=kline_obj))`; the
`Kline` model itself is not under `src/`).  `start`/`end` become
`open_ts`/`end_ts`, `turnover` the quote volume, `confirm` the closed flag. -/
def kline_from_ws (d : WsKlineData) : Kline :=
  { source := d.source?.getD ""
    symbol := d.s?.getD ""
    timeframe := d.i?.getD ""
    open_ts := (d.start : Int)
    end_ts := (d.«end» : Int)
    «open» := d.«open»
    high := d.high
    low := d.low
    close := d.close
    volume := d.volume
    quote_volume := some d.turnover
    is_closed := some d.confirm
    count := none }

/-- `KlineNormalizer.ws` from `normalizers/ohlc.py`.  Empty or missing
`data` → `None`.  If the topic contains `"kline"`, the symbol and interval
are read from `topic.split(".")[2]` and `[1]` (an `IndexError` when the
topic has fewer than three parts), written into the data dict, and the
timestamps adjusted.  If the topic does not contain `"kline"`, the Python
code falls through to an unbound `kline_obj` (`NameError`). -/
def klineNormalizer_ws (data : BybitWsMessage) :
    Except String (Option (Kline × BybitWsMessage)) :=
  match data.data with
  | [] => .ok none
  | kline_obj :: rest =>
    let topic := (data.topic.getD "")
    if hasSubstr "kline".data topic.data then
      let topic_parts := topicSplit topic
      match topic_parts[2]?, topic_parts[1]? with
      | some sym, some iv =>
        let k1 := { kline_obj with
          source? := some "bybit"
          s? := some sym
          i? := some (get_streamforge_timeframe iv) }
        match adjust_bybit_timestamps k1 with
        | .error e => .error e
        | .ok k2 => .ok (some (kline_from_ws k2, { data with data := k2 :: rest }))
      | _, _ => .error "IndexError"
    else
      .error "NameError: kline_obj"

/-- `BybitNormalizers.ws` from `normalizers/normalizer.py`: route to the
kline normalizer when the topic contains `"kline"`, otherwise return
`None` (do not raise). -/
def bybitNormalizers_ws (data : BybitWsMessage) :
    Except String (Option (Kline × BybitWsMessage)) :=
  let topic := (data.topic.getD "")
  if hasSubstr "kline".data topic.data then
    klineNormalizer_ws data
  else
    .ok none

/-- One row of a Bybit REST kline response:
`[startTime, open, high, low, close, volume, turnover]`. -/
structure ApiRow where
  start : Nat
  «open» : Rat
  high : Rat
  low : Rat
  close : Rat
  volume : Rat
  turnover : Rat
  deriving Repr, DecidableEq

/-- `KlineNormalizer.api` from `normalizers/ohlc.py`: the start timestamp is
reduced to seconds by the detected precision, and the end timestamp is
`start + get_timeframe_seconds(timeframe) - 1`. -/
def klineNormalizer_api (row : ApiRow) (symbol timeframe : String) : Kline :=
  let timeframe_seconds := get_timeframe_seconds timeframe
  let start_timestamp : Nat := row.start / get_timestamp_precision row.start
  let end_timestamp : Int := (start_timestamp : Int) + (timeframe_seconds : Int) - 1
  { source := "bybit"
    symbol := symbol
    timeframe := timeframe
    open_ts := (start_timestamp : Int)
    end_ts := end_timestamp
    «open» := row.«open»
    high := row.high
    low := row.low
    close := row.close
    volume := row.volume
    quote_volume := some row.turnover
    is_closed := none
    count := none }

/-! ## REST clients
Source: `src/streamforge/ingestion/bybit/api/api.py` and
`src/streamforge/ingestion/binance/api/api.py`. -/

/-- Outcome of one HTTP fetch attempt in `_fetch_data_with_limit`. -/
inductive FetchOutcome where
  | success
  | sleepRetry (seconds : Nat)
  | banError (name : String)
  | genericError
  deriving Repr, DecidableEq

/-- The `except aiohttp.ClientResponseError` decision of
`BinanceAPI._fetch_data_with_limit` as a function of the HTTP status
(`raise_for_status` raises for any status ≥ 400): 429 → sleep 60 s and
retry; 418 → `BinanceAPIBanError`; any other error status → a generic,
non-retryable exception. -/
def binance_fetch_status_decision (status : Nat) : FetchOutcome :=
  if status < 400 then .success
  else if status = 429 then .sleepRetry 60
  else if status = 418 then .banError "BinanceAPIBanError"
  else .genericError

/-- The `except aiohttp.ClientResponseError` decision of
`BybitAPI._fetch_data_with_limit`: 429 → sleep 5 s and retry; 403 →
`BybitAPIBanError`; any other error status → a generic, non-retryable
exception. -/
def bybit_fetch_status_decision (status : Nat) : FetchOutcome :=
  if status < 400 then .success
  else if status = 429 then .sleepRetry 5
  else if status = 403 then .banError "BybitAPIBanError"
  else .genericError

/-- The row handling of `BybitAPI.fetch_historical_candles`: each fetched
window is dropped when empty, otherwise reversed (`klines.reverse()`)
before being yielded. -/
def fetch_historical_candles_batches (windows : List (List ApiRow)) :
    List (List ApiRow) :=
  (windows.filter (fun klines => !klines.isEmpty)).map List.reverse

/-- The row handling of `BybitAPI.fetch_candles` (the warmup fetch): the
window responses are concatenated with `extend` and returned as a single
batch — no window is reversed. -/
def fetch_candles_batches (responses : List (List ApiRow)) :
    List (List ApiRow) :=
  [responses.flatten]

/-! ## Processor startup
Source: `src/streamforge/ingestion/bybit/processors/processor.py` and
`processors/util.py`. -/

/-- Modelled from the spec: the `StreamInput`/`DataInput` value object (§6)
— stream type, symbols, base timeframe and the optional aggregation list
(the class itself, `streamforge.base.stream_input.DataInput`, is not under
`src/`). -/
structure DataInput where
  type : String
  symbols : List String
  timeframe : String
  aggregate_list : List String
  deriving Repr, DecidableEq

/-- `check_aggregation_setup` from `processors/util.py`: with a non-empty
`aggregate_list` and warmup inactive it raises `WarmupConfigurationError`;
otherwise it reports whether aggregation is configured. -/
def check_aggregation_setup (warmup_active : Bool) (streams_input : DataInput) :
    Except String Bool :=
  if !streams_input.aggregate_list.isEmpty then
    if !warmup_active then .error "WarmupConfigurationError"
    else .ok true
  else .ok false

/-- The warmup decision of `BybitProcessor.init_processors`
(`processor.py`, lines 38–42): `warmup_active` is derived solely from
whether `aggregate_list` is non-empty; the method has no parameter carrying
the runner's `active_warmup` flag. -/
def init_processors_warmup_active (data_input : DataInput) : Bool :=
  !data_input.aggregate_list.isEmpty

/-- The aggregation-setup check as it runs during Bybit startup: the
runner's `active_warmup` flag is accepted but never consulted, because
`BybitProcessor.init_processors` recomputes `warmup_active` from
`aggregate_list` before the processor (and with it
`check_aggregation_setup`) is constructed. -/
def bybit_startup_aggregation_check (_active_warmup : Bool)
    (data_input : DataInput) : Except String Bool :=
  check_aggregation_setup (init_processors_warmup_active data_input) data_input

/-! ## Lemmas about the aggregation fold -/

lemma takeWhile_eq_self_of_all {α} (p : α → Bool) (l : List α)
    (h : ∀ a ∈ l, p a = true) : l.takeWhile p = l := by
  induction l with
  | nil => rfl
  | cons x xs ih =>
    have hx := h x (by simp)
    have hxs := ih (fun a ha => h a (by simp [ha]))
    simp [List.takeWhile_cons, hx, hxs]

lemma foldl_agg_step_open (l : List Kline) (acc : Kline) :
    (l.foldl agg_step acc).«open» = acc.«open» := by
  induction l generalizing acc with
  | nil => rfl
  | cons x xs ih => rw [List.foldl_cons, ih]; rfl

lemma foldl_agg_step_open_ts (l : List Kline) (acc : Kline) :
    (l.foldl agg_step acc).open_ts = acc.open_ts := by
  induction l generalizing acc with
  | nil => rfl
  | cons x xs ih => rw [List.foldl_cons, ih]; rfl

lemma foldl_agg_step_end_ts (l : List Kline) (acc : Kline) :
    (l.foldl agg_step acc).end_ts = acc.end_ts := by
  induction l generalizing acc with
  | nil => rfl
  | cons x xs ih => rw [List.foldl_cons, ih]; rfl

lemma foldl_agg_step_volume (l : List Kline) (acc : Kline) :
    (l.foldl agg_step acc).volume = acc.volume + (l.map Kline.volume).sum := by
  induction l generalizing acc with
  | nil => simp
  | cons x xs ih =>
    rw [List.foldl_cons, ih]
    simp only [agg_step, List.map_cons, List.sum_cons]
    ring

lemma foldl_agg_step_quote (l : List Kline) (acc : Kline) (q : Rat)
    (hq : acc.quote_volume = some q) :
    (l.foldl agg_step acc).quote_volume
      = some (q + (l.map (fun c => c.quote_volume.getD 0)).sum) := by
  induction l generalizing acc q with
  | nil => simpa using hq
  | cons x xs ih =>
    rw [List.foldl_cons,
      ih (agg_step acc x) (q + x.quote_volume.getD 0) (by simp [agg_step, hq])]
    simp only [List.map_cons, List.sum_cons]
    ring_nf

lemma foldl_agg_step_count (l : List Kline) (acc : Kline) (n : Nat)
    (hn : acc.count = some n) :
    (l.foldl agg_step acc).count = some (n + l.length) := by
  induction l generalizing acc n with
  | nil => simpa using hn
  | cons x xs ih =>
    rw [List.foldl_cons, ih (agg_step acc x) (n + 1) (by simp [agg_step, hn])]
    simp only [List.length_cons]
    congr 1
    omega

lemma foldl_agg_step_close (l : List Kline) (acc : Kline) :
    (l.foldl agg_step acc).close = (l.map Kline.close).getLastD acc.close := by
  induction l generalizing acc with
  | nil => rfl
  | cons x xs ih =>
    rw [List.foldl_cons, ih, List.map_cons, List.getLastD_cons]
    rfl

lemma foldl_agg_step_high (l : List Kline) (acc : Kline) :
    (l.foldl agg_step acc).high = (l.map Kline.high).foldl max acc.high := by
  induction l generalizing acc with
  | nil => rfl
  | cons x xs ih =>
    rw [List.foldl_cons, ih]
    rfl

lemma foldl_agg_step_low (l : List Kline) (acc : Kline) :
    (l.foldl agg_step acc).low = (l.map Kline.low).foldl min acc.low := by
  induction l generalizing acc with
  | nil => rfl
  | cons x xs ih =>
    rw [List.foldl_cons, ih]
    rfl

lemma le_foldl_max (xs : List Rat) (a : Rat) : a ≤ xs.foldl max a := by
  induction xs generalizing a with
  | nil => exact le_refl a
  | cons x xs ih =>
    exact le_trans (le_max_left a x) (ih (max a x))

lemma foldl_max_le_of_mem (xs : List Rat) (a : Rat) (x : Rat) (hx : x ∈ xs) :
    x ≤ xs.foldl max a := by
  induction xs generalizing a with
  | nil => simp at hx
  | cons y ys ih =>
    rcases List.mem_cons.mp hx with h | h
    · subst h
      exact le_trans (le_max_right a x) (le_foldl_max ys (max a x))
    · exact ih (max a y) h

lemma foldl_max_mem (xs : List Rat) (a : Rat) :
    xs.foldl max a = a ∨ xs.foldl max a ∈ xs := by
  induction xs generalizing a with
  | nil => exact Or.inl rfl
  | cons x xs ih =>
    rcases ih (max a x) with h | h
    · rw [List.foldl_cons, h]
      rcases max_choice a x with h' | h'
      · exact Or.inl h'
      · exact Or.inr (by rw [h']; simp)
    · exact Or.inr (List.mem_cons_of_mem x h)

lemma foldl_min_le (xs : List Rat) (a : Rat) : xs.foldl min a ≤ a := by
  induction xs generalizing a with
  | nil => exact le_refl a
  | cons x xs ih =>
    exact le_trans (ih (min a x)) (min_le_left a x)

lemma foldl_min_le_of_mem (xs : List Rat) (a : Rat) (x : Rat) (hx : x ∈ xs) :
    xs.foldl min a ≤ x := by
  induction xs generalizing a with
  | nil => simp at hx
  | cons y ys ih =>
    rcases List.mem_cons.mp hx with h | h
    · subst h
      exact le_trans (foldl_min_le ys (min a x)) (min_le_right a x)
    · exact ih (min a y) h

lemma foldl_min_mem (xs : List Rat) (a : Rat) :
    xs.foldl min a = a ∨ xs.foldl min a ∈ xs := by
  induction xs generalizing a with
  | nil => exact Or.inl rfl
  | cons x xs ih =>
    rcases ih (min a x) with h | h
    · rw [List.foldl_cons, h]
      rcases min_choice a x with h' | h'
      · exact Or.inl h'
      · exact Or.inr (by rw [h']; simp)
    · exact Or.inr (List.mem_cons_of_mem x h)

lemma getLastD_map_close (xs : List Kline) (a : Kline) :
    (xs.map Kline.close).getLastD a.close = (xs.getLastD a).close := by
  induction xs generalizing a with
  | nil => rfl
  | cons x xs ih => rw [List.map_cons, List.getLastD_cons, List.getLastD_cons, ih]

/-- `aggregate` on a buffer holding `c0 :: cs` with `c0` sitting exactly at
the bucket start and every tail candle strictly before the reference
timestamp: the whole buffer is folded. -/
lemma aggregate_cons_eq (buffer : BaseKlineBuffer) (T : BaseTimeframe)
    (c0 : Kline) (cs : List Kline) (target_ts ref_timestamp : Int)
    (hdata : buffer.data = c0 :: cs)
    (hfirst : c0.open_ts = target_ts)
    (htarget : adjust_timestamp ref_timestamp T.offset = target_ts)
    (htail : ∀ c ∈ cs, c.open_ts < ref_timestamp) :
    aggregate buffer T ref_timestamp
      = some (cs.foldl agg_step
          (agg_init buffer T target_ts ref_timestamp c0)) := by
  have hall : ∀ c ∈ cs, (fun d => decide (d.open_ts < ref_timestamp)) c = true := by
    intro c hc
    simpa using htail c hc
  unfold aggregate
  rw [htarget]
  unfold get_first_index
  rw [hdata]
  unfold get_first_index_aux
  simp only [hfirst, eq_self_iff_true, if_true, List.drop_zero,
    takeWhile_eq_self_of_all _ _ hall]

/-- C1: when the base buffer holds, in chronological order, exactly the `N`
base candles of one target bucket — the first at the bucket start
`target_ts`, the `j`-th at `target_ts + j·b` for a base duration `b` with
`N·b = duration(T)` — the candle returned by `AggregateTF.aggregate` at the
bucket's closing trigger opens with the first candle's open, closes with
the last candle's close, takes the maximum high and minimum low, sums the
volumes and quote volumes, and counts `N`. -/
theorem C1_aggregate_conservation
    (T : BaseTimeframe) (b : Int) (N : Nat)
    (buffer : BaseKlineBuffer) (c0 : Kline) (cs : List Kline)
    (target_ts ref_timestamp : Int)
    (hdata : buffer.data = c0 :: cs)
    (hb : 2 ≤ b)
    (hT : T.offset = (N : Int) * b)
    (hlen : cs.length + 1 = N)
    (hfirst : c0.open_ts = target_ts)
    (hslots : ∀ j (hj : j < cs.length),
      (cs.get ⟨j, hj⟩).open_ts = target_ts + ((j : Int) + 1) * b)
    (href : ref_timestamp = target_ts + T.offset - 1) :
    ∃ k, aggregate buffer T ref_timestamp = some k ∧
      k.«open» = c0.«open» ∧
      k.close = (cs.getLastD c0).close ∧
      (∀ c ∈ buffer.data, c.high ≤ k.high) ∧
      (∃ c ∈ buffer.data, k.high = c.high) ∧
      (∀ c ∈ buffer.data, k.low ≤ c.low) ∧
      (∃ c ∈ buffer.data, k.low = c.low) ∧
      k.volume = (buffer.data.map Kline.volume).sum ∧
      k.quote_volume = some ((buffer.data.map (fun c => c.quote_volume.getD 0)).sum) ∧
      k.count = some N := by
  have htail : ∀ c ∈ cs, c.open_ts < ref_timestamp := by
    intro c hc
    obtain ⟨⟨j, hj⟩, rfl⟩ := List.mem_iff_get.mp hc
    rw [hslots j hj, href, hT]
    have hj1 : (j : Int) + 1 ≤ (N : Int) - 1 := by
      have : j + 1 ≤ N - 1 := by omega
      have h2 : ((j : Int) + 1) ≤ ((N - 1 : Nat) : Int) := by exact_mod_cast this
      have h3 : ((N - 1 : Nat) : Int) ≤ (N : Int) - 1 := by
        have : 1 ≤ N := by omega
        omega
      omega
    have h1 : ((j : Int) + 1) * b ≤ ((N : Int) - 1) * b :=
      mul_le_mul_of_nonneg_right hj1 (by omega)
    have h2 : ((N : Int) - 1) * b = (N : Int) * b - b := by ring
    linarith
  have htarget : adjust_timestamp ref_timestamp T.offset = target_ts := by
    unfold adjust_timestamp
    omega
  rw [aggregate_cons_eq buffer T c0 cs target_ts ref_timestamp hdata hfirst htarget htail]
  refine ⟨_, rfl, ?_, ?_, ?_, ?_, ?_, ?_, ?_, ?_, ?_⟩
  · exact foldl_agg_step_open cs _
  · rw [foldl_agg_step_close]
    exact getLastD_map_close cs c0
  · intro c hc
    rw [foldl_agg_step_high]
    rw [hdata] at hc
    rcases List.mem_cons.mp hc with h | h
    · subst h
      exact le_foldl_max _ _
    · exact foldl_max_le_of_mem _ _ _ (List.mem_map_of_mem Kline.high h)
  · rw [foldl_agg_step_high]
    rcases foldl_max_mem (cs.map Kline.high) (agg_init buffer T target_ts ref_timestamp c0).high with h | h
    · exact ⟨c0, by rw [hdata]; simp, h⟩
    · obtain ⟨c, hc, hceq⟩ := List.mem_map.mp h
      exact ⟨c, by rw [hdata]; simp [hc], hceq.symm⟩
  · intro c hc
    rw [foldl_agg_step_low]
    rw [hdata] at hc
    rcases List.mem_cons.mp hc with h | h
    · subst h
      exact foldl_min_le _ _
    · exact foldl_min_le_of_mem _ _ _ (List.mem_map_of_mem Kline.low h)
  · rw [foldl_agg_step_low]
    rcases foldl_min_mem (cs.map Kline.low) (agg_init buffer T target_ts ref_timestamp c0).low with h | h
    · exact ⟨c0, by rw [hdata]; simp, h⟩
    · obtain ⟨c, hc, hceq⟩ := List.mem_map.mp h
      exact ⟨c, by rw [hdata]; simp [hc], hceq.symm⟩
  · rw [foldl_agg_step_volume, hdata]
    simp [agg_init]
  · rw [foldl_agg_step_quote _ _ (c0.quote_volume.getD 0) rfl, hdata]
    simp
  · rw [foldl_agg_step_count _ _ 1 rfl]
    congr 1
    omega

/-- A concrete closed 1m base candle for witness buffers. -/
def mkBase (ts : Int) (o h l c v q : Rat) : Kline :=
  ⟨"bybit", "BTCUSDT", "1m", ts, ts + 59, o, h, l, c, v, some q, some true, none⟩

/-- First base candle of the witness bucket (spec scenario 2). -/
def w1c0 : Kline := mkBase 1700000000 1 10 7 2 1 1

/-- Remaining base candles of the witness bucket (spec scenario 2). -/
def w1cs : List Kline :=
  [mkBase 1700000060 2 11 6 3 2 2,
   mkBase 1700000120 3 9 5 4 3 3,
   mkBase 1700000180 4 12 4 5 4 4,
   mkBase 1700000240 5 8 3 6 5 5]

/-- The witness buffer: exactly the five 1m candles of one 5m bucket. -/
def w1buf : BaseKlineBuffer := ⟨"BTCUSDT", w1c0 :: w1cs⟩

/-- C1, witness: the conservation theorem applied to the five-candle 1m→5m
bucket of the specification's scenario 2. -/
theorem C1_aggregate_conservation_witness :
    ∃ k, aggregate w1buf tf5m 1700000299 = some k ∧
      k.«open» = w1c0.«open» ∧
      k.close = (w1cs.getLastD w1c0).close ∧
      (∀ c ∈ w1buf.data, c.high ≤ k.high) ∧
      (∃ c ∈ w1buf.data, k.high = c.high) ∧
      (∀ c ∈ w1buf.data, k.low ≤ c.low) ∧
      (∃ c ∈ w1buf.data, k.low = c.low) ∧
      k.volume = (w1buf.data.map Kline.volume).sum ∧
      k.quote_volume = some ((w1buf.data.map (fun c => c.quote_volume.getD 0)).sum) ∧
      k.count = some 5 :=
  C1_aggregate_conservation tf5m 60 5 w1buf w1c0 w1cs 1700000000 1700000299
    rfl (by norm_num) (by norm_num [tf5m]) rfl rfl (by decide) (by decide)

/-- C10: `AggregateTF.aggregate` checks only that the bucket-start candle is
buffered.  On a buffer holding the bucket-start candle but missing later
base candles of the same bucket (fewer than the full `N = duration(T) /
duration(B)` candles, all before the trigger), it still returns an
aggregated candle computed over only the candles present, with `count`
equal to the number actually summed — less than `N` — instead of skipping
the bucket. -/
theorem C10_partial_aggregate
    (T B : BaseTimeframe) (N : Nat)
    (buffer : BaseKlineBuffer) (c0 : Kline) (cs : List Kline)
    (target_ts ref_timestamp : Int)
    (hdata : buffer.data = c0 :: cs)
    (hT : T.offset = (N : Int) * B.offset)
    (hfirst : c0.open_ts = target_ts)
    (htail : ∀ c ∈ cs, c.open_ts < ref_timestamp)
    (href : ref_timestamp = target_ts + T.offset - 1)
    (hmiss : buffer.data.length < N) :
    ∃ k, aggregate buffer T ref_timestamp = some k ∧
      k.count = some buffer.data.length ∧
      buffer.data.length < N ∧
      k.volume = (buffer.data.map Kline.volume).sum := by
  have htarget : adjust_timestamp ref_timestamp T.offset = target_ts := by
    unfold adjust_timestamp
    omega
  rw [aggregate_cons_eq buffer T c0 cs target_ts ref_timestamp hdata hfirst htarget htail]
  refine ⟨_, rfl, ?_, hmiss, ?_⟩
  · rw [foldl_agg_step_count _ _ 1 rfl, hdata]
    congr 1
    simp
    omega
  · rw [foldl_agg_step_volume, hdata]
    simp [agg_init]

/-- The two-candle witness buffer: the bucket-start candle and the candle
two slots later; the 1m candles at `…060`, `…180` and `…240` are missing. -/
def w10buf : BaseKlineBuffer :=
  ⟨"BTCUSDT", [mkBase 1700000000 1 10 7 2 1 1, mkBase 1700000120 3 9 5 4 3 3]⟩

/-- C10, witness: the partial-aggregation theorem applied to a 5m bucket
with only two of its five 1m candles buffered. -/
theorem C10_partial_aggregate_witness :
    ∃ k, aggregate w10buf tf5m 1700000299 = some k ∧
      k.count = some w10buf.data.length ∧
      w10buf.data.length < 5 ∧
      k.volume = (w10buf.data.map Kline.volume).sum :=
  C10_partial_aggregate tf5m tf1m 5 w10buf
    (mkBase 1700000000 1 10 7 2 1 1) [mkBase 1700000120 3 9 5 4 3 3]
    1700000000 1700000299 rfl (by norm_num [tf5m, tf1m]) rfl
    (by decide) (by decide) (by decide)

/-- The stream input of the C2 scenario: `aggregate_list=["5m"]`. -/
def c2input : DataInput := ⟨"kline", ["BTCUSDT"], "1m", ["5m"]⟩

/-- C2, counterexample: with `aggregate_list = ["5m"]` and the runner's
`active_warmup = false`, Bybit startup does not fail — `init_processors`
recomputes `warmup_active` from `aggregate_list`, so the aggregation check
succeeds and no `WarmupConfigurationError` is raised. -/
theorem C2_counterexample :
    bybit_startup_aggregation_check false c2input = .ok true ∧
    bybit_startup_aggregation_check false c2input ≠ .error "WarmupConfigurationError" := by
  decide

/-- C2 (amended): for every configuration with a non-empty
`aggregate_list`, `BybitProcessor.init_processors` forces `warmup_active`
on regardless of the runner's `active_warmup` flag, so startup succeeds
with aggregation configured; `check_aggregation_setup` raises
`WarmupConfigurationError` only when invoked directly with warmup
disabled, which the Bybit init path never does. -/
theorem C2_warmup_forced (active_warmup : Bool) (data_input : DataInput)
    (h : data_input.aggregate_list ≠ []) :
    init_processors_warmup_active data_input = true ∧
    bybit_startup_aggregation_check active_warmup data_input = .ok true ∧
    check_aggregation_setup false data_input = .error "WarmupConfigurationError" := by
  have h' : data_input.aggregate_list.isEmpty = false := by
    cases hl : data_input.aggregate_list with
    | nil => exact absurd hl h
    | cons a l => rfl
  refine ⟨?_, ?_, ?_⟩
  · unfold init_processors_warmup_active
    rw [h']
    rfl
  · unfold bybit_startup_aggregation_check init_processors_warmup_active
      check_aggregation_setup
    rw [h']
    rfl
  · unfold check_aggregation_setup
    rw [h']
    rfl

/-- C2, witness for the amended theorem at the concrete `["5m"]` input. -/
theorem C2_warmup_forced_witness :
    init_processors_warmup_active c2input = true ∧
    bybit_startup_aggregation_check false c2input = .ok true ∧
    check_aggregation_setup false c2input = .error "WarmupConfigurationError" :=
  C2_warmup_forced false c2input (by decide)

/-- The newer row of a two-row Bybit REST window (Bybit returns
newest-first). -/
def c3newer : ApiRow := ⟨1700000060000, 1, 2, 1, 2, 10, 20⟩

/-- The older row of the same window. -/
def c3older : ApiRow := ⟨1700000000000, 3, 4, 3, 4, 11, 21⟩

/-- C3: evaluating both REST row paths at a newest-first window.  The
backfill fetch (`fetch_historical_candles`) reverses the window to
chronological order, but the warmup fetch (`fetch_candles`) passes the rows
through newest-first — contradicting the claim that every fetched window is
reversed before normalization or buffering. -/
theorem C3_warmup_window_not_reversed :
    fetch_candles_batches [[c3newer, c3older]] = [[c3newer, c3older]] ∧
    fetch_historical_candles_batches [[c3newer, c3older]] = [[c3older, c3newer]] ∧
    [[c3newer, c3older]] ≠ [[c3older, c3newer]] := by
  refine ⟨rfl, rfl, ?_⟩
  intro h
  simp only [List.cons.injEq, and_true] at h
  have : c3newer = c3older := h.1
  simp [c3newer, c3older, ApiRow.mk.injEq] at this

/-- C7, counterexample: HTTP 403 at the Binance client and HTTP 418 at the
Bybit client do not raise the exchange's ban error — each falls into the
generic `raise Exception` branch. -/
theorem C7_counterexample :
    binance_fetch_status_decision 403 ≠ .banError "BinanceAPIBanError" ∧
    bybit_fetch_status_decision 418 ≠ .banError "BybitAPIBanError" := by
  decide

/-- C7 (amended): on HTTP 429 the Binance client sleeps 60 s and the Bybit
client 5 s before retrying; Binance raises `BinanceAPIBanError` only on
418 and Bybit raises `BybitAPIBanError` only on 403; the remaining status
of the 418/403 pair raises a generic, non-retryable error in each client. -/
theorem C7_rate_limit_and_ban :
    binance_fetch_status_decision 429 = .sleepRetry 60 ∧
    bybit_fetch_status_decision 429 = .sleepRetry 5 ∧
    binance_fetch_status_decision 418 = .banError "BinanceAPIBanError" ∧
    bybit_fetch_status_decision 403 = .banError "BybitAPIBanError" ∧
    binance_fetch_status_decision 403 = .genericError ∧
    bybit_fetch_status_decision 418 = .genericError := by
  decide

/-- C9: the timeframe round trip evaluated at the failing input `"1M"`.
`get_bybit_timeframe` lower-cases its argument first, so `"1M"` collides
with the `"1m"` entry and maps to `"1"`, which round-trips to `"1m"`,
not `"1M"` — even though the code's own `TIMEFRAME_TO_BYBIT_MAP` carries
the (unreachable) entry `"1M" → "M"`.  `"1w"`, which lower-casing leaves
unchanged, round-trips correctly. -/
theorem C9_roundtrip_1M_fails :
    get_bybit_timeframe "1M" = "1" ∧
    get_streamforge_timeframe (get_bybit_timeframe "1M") = "1m" ∧
    ("1m" : String) ≠ "1M" ∧
    TIMEFRAME_TO_BYBIT_MAP "1M" = some "M" ∧
    get_streamforge_timeframe (get_bybit_timeframe "1w") = "1w" := by
  decide

/-- A concrete REST row with a 10-digit (seconds) start timestamp. -/
def c5row : ApiRow := ⟨1700000000, 2, 3, 1, 2, 10, 20⟩

/-- C5, counterexample: for the enum timeframe `"1w"` the REST normalizer
produces `end_ts − open_ts + 1 = 60`, not the week's 604800 seconds —
`get_timeframe_seconds` falls back to one minute for the timeframes missing
from `TIMEFRAME_TO_MINUTES_MAP` (`"1w"` and `"1M"`). -/
theorem C5_counterexample :
    (klineNormalizer_api c5row "BTCUSDT" "1w").end_ts
      - (klineNormalizer_api c5row "BTCUSDT" "1w").open_ts + 1 = 60 ∧
    spec_duration "1w" = some 604800 ∧
    ((60 : Int) ≠ 604800) := by
  have key : (klineNormalizer_api c5row "BTCUSDT" "1w").end_ts
      - (klineNormalizer_api c5row "BTCUSDT" "1w").open_ts + 1
      = (get_timeframe_seconds "1w" : Int) := by
    simp only [klineNormalizer_api]
    ring
  have hs : get_timeframe_seconds "1w" = 60 := rfl
  refine ⟨?_, rfl, by norm_num⟩
  rw [key, hs]
  rfl

/-- C5 (amended): for every candle produced by `KlineNormalizer.api` with a
timeframe among the nine fixed-duration enum entries `1m…1d`, the end
timestamp satisfies `end_ts − open_ts + 1 = duration(timeframe)`; for
`"1w"` and `"1M"` the code falls back to a 60-second duration instead. -/
theorem C5_end_ts_duration (row : ApiRow) (symbol timeframe : String)
    (h : timeframe ∈ ["1m", "3m", "5m", "15m", "30m", "1h", "2h", "4h", "1d"]) :
    spec_duration timeframe
      = some ((klineNormalizer_api row symbol timeframe).end_ts
        - (klineNormalizer_api row symbol timeframe).open_ts + 1) := by
  have key : ∀ tf : String,
      (klineNormalizer_api row symbol tf).end_ts
        - (klineNormalizer_api row symbol tf).open_ts + 1
        = (get_timeframe_seconds tf : Int) := by
    intro tf
    simp only [klineNormalizer_api]
    ring
  fin_cases h <;> rw [key] <;> decide

/-- C5, witness for the amended theorem at the `"1m"` timeframe. -/
theorem C5_end_ts_duration_witness :
    spec_duration "1m"
      = some ((klineNormalizer_api c5row "BTCUSDT" "1m").end_ts
        - (klineNormalizer_api c5row "BTCUSDT" "1m").open_ts + 1) :=
  C5_end_ts_duration c5row "BTCUSDT" "1m" (by decide)

/-- C6, counterexample: the Binance normalizer divides a 10-digit (seconds)
timestamp by 1000 instead of applying the digit-count rule, which divides a
10-digit value by 1. -/
theorem C6_counterexample :
    adjust_binance_timestamps 1700000000 1700000059 = (1700000, 1700000) ∧
    1700000000 / get_timestamp_precision 1700000000 = 1700000000 ∧
    (1700000 : Nat) ≠ 1700000000 := by
  have hp : get_timestamp_precision 1700000000 = 1 :=
    get_timestamp_precision_seconds (by norm_num) (by norm_num)
  refine ⟨by decide, ?_, by decide⟩
  rw [hp, Nat.div_one]

/-- C6 (amended): the digit-count rule holds in the Bybit normalizer — a
10-digit timestamp is divided by 1, a 13-digit one by 10³, a 16-digit one
by 10⁶ — while the Binance normalizer divides every timestamp by 1000
unconditionally, regardless of digit count. -/
theorem C6_precision_rule :
    (∀ n : Nat, 10 ^ 9 ≤ n → n < 10 ^ 10 → n / get_timestamp_precision n = n) ∧
    (∀ n : Nat, 10 ^ 12 ≤ n → n < 10 ^ 13 → n / get_timestamp_precision n = n / 1000) ∧
    (∀ n : Nat, 10 ^ 15 ≤ n → n < 10 ^ 16 → n / get_timestamp_precision n = n / 1000000) ∧
    (∀ t T : Nat, adjust_binance_timestamps t T = (t / 1000, T / 1000)) := by
  refine ⟨?_, ?_, ?_, fun t T => rfl⟩
  · intro n h1 h2
    rw [get_timestamp_precision_seconds h1 h2, Nat.div_one]
  · intro n h1 h2
    rw [get_timestamp_precision_millis h1 h2]
  · intro n h1 h2
    rw [get_timestamp_precision_micros h1 h2]

/-- C6, witness for the amended theorem at 10-, 13- and 16-digit
timestamps. -/
theorem C6_precision_rule_witness :
    1700000000 / get_timestamp_precision 1700000000 = 1700000000 ∧
    1700000000000 / get_timestamp_precision 1700000000000 = 1700000000 ∧
    1700000000000000 / get_timestamp_precision 1700000000000000 = 1700000000 ∧
    adjust_binance_timestamps 1700000000000 1700000059999 = (1700000000, 1700000059) :=
  ⟨C6_precision_rule.1 1700000000 (by norm_num) (by norm_num),
   by rw [C6_precision_rule.2.1 1700000000000 (by norm_num) (by norm_num)],
   by rw [C6_precision_rule.2.2.1 1700000000000000 (by norm_num) (by norm_num)],
   by rw [C6_precision_rule.2.2.2 1700000000000 1700000059999]⟩

lemma adjust_ok_timestamp_none (d k2 : WsKlineData)
    (h : adjust_bybit_timestamps d = .ok k2) : k2.timestamp? = none := by
  unfold adjust_bybit_timestamps at h
  cases hts : d.timestamp? with
  | none => rw [hts] at h; cases h
  | some t =>
    rw [hts] at h
    cases h
    rfl

/-- C4 (amended): the Bybit WebSocket normalizer mutates its message in
place: a successful call removes the data element's `timestamp` key, so a
second call on the same (mutated) message raises `KeyError` instead of
succeeding with an equal candle.  (On a fresh equal parse of the frame the
normalizer, being a pure function of the message value, returns the same
candle.) -/
theorem C4_ws_second_call_raises (m : BybitWsMessage) (k : Kline) (m' : BybitWsMessage)
    (h : bybitNormalizers_ws m = .ok (some (k, m'))) :
    bybitNormalizers_ws m' = .error "KeyError: timestamp" := by
  unfold bybitNormalizers_ws at h
  rcases Bool.eq_false_or_eq_true
    (hasSubstr "kline".data ((m.topic.getD "")).data) with hc | hc
  swap
  · simp [hc] at h
  · simp only [hc, if_true] at h
    unfold klineNormalizer_ws at h
    cases hd : m.data with
    | nil => simp [hd] at h
    | cons d rest =>
      simp only [hd, hc, if_true] at h
      cases h2 : (topicSplit (m.topic.getD ""))[2]? with
      | none => simp [h2] at h
      | some sym =>
        cases h1 : (topicSplit (m.topic.getD ""))[1]? with
        | none => simp [h2, h1] at h
        | some iv =>
          simp only [h2, h1] at h
          cases hadj : adjust_bybit_timestamps { d with
              source? := some "bybit"
              s? := some sym
              i? := some (get_streamforge_timeframe iv) } with
          | error e => simp [hadj] at h
          | ok k2 =>
            simp only [hadj, Except.ok.injEq, Option.some.injEq,
              Prod.mk.injEq] at h
            have hm' : m' = { m with data := k2 :: rest } := h.2.symm
            have hts : k2.timestamp? = none := adjust_ok_timestamp_none _ _ hadj
            subst hm'
            unfold bybitNormalizers_ws klineNormalizer_ws adjust_bybit_timestamps
            simp [hc, h2, h1, hts]

/-- A valid Bybit kline frame's data element, `timestamp` key present (live
Bybit v5 frames carry it), millisecond timestamps. -/
def c4data : WsKlineData :=
  ⟨1672304400000, 1672304459999, "1", 2, 3, 1, 2, 5, 7, false,
    some 1672304486868, none, none, none⟩

/-- A valid Bybit kline WebSocket message. -/
def c4msg : BybitWsMessage := ⟨some "kline.1.BTCUSDT", [c4data]⟩

/-- `c4data` as the normalizer leaves it after one successful call:
timestamps reduced to seconds, `timestamp` popped, `source`/`s`/`i`
written. -/
def c4data2 : WsKlineData :=
  ⟨1672304400, 1672304459, "1", 2, 3, 1, 2, 5, 7, false,
    none, some "bybit", some "BTCUSDT", some "1m"⟩

/-- `c4msg` after the in-place mutation of the first call. -/
def c4msg2 : BybitWsMessage := ⟨some "kline.1.BTCUSDT", [c4data2]⟩

/-- The candle the first call returns. -/
def c4kline : Kline :=
  ⟨"bybit", "BTCUSDT", "1m", 1672304400, 1672304459, 2, 3, 1, 2, 5,
    some 7, some false, none⟩

lemma adjust_bybit_timestamps_some (d : WsKlineData) (t : Nat)
    (ht : d.timestamp? = some t) :
    adjust_bybit_timestamps d = .ok { d with
      start := d.start / get_timestamp_precision d.start
      «end» := d.«end» / get_timestamp_precision d.start
      timestamp? := none } := by
  unfold adjust_bybit_timestamps
  simp only [ht]

/-- The success path of the WebSocket normalizer, fully symbolically: a
kline-topic message with a non-empty data array whose timestamps adjust to
`k2` normalizes to the candle built from `k2` and returns the mutated
message. -/
lemma klineNormalizer_ws_cons (m : BybitWsMessage) (d : WsKlineData)
    (rest : List WsKlineData) (sym iv : String) (k2 : WsKlineData)
    (hd : m.data = d :: rest)
    (hc : hasSubstr "kline".data ((m.topic.getD "")).data = true)
    (h2 : (topicSplit (m.topic.getD ""))[2]? = some sym)
    (h1 : (topicSplit (m.topic.getD ""))[1]? = some iv)
    (hadj : adjust_bybit_timestamps { d with
        source? := some "bybit", s? := some sym,
        i? := some (get_streamforge_timeframe iv) } = .ok k2) :
    bybitNormalizers_ws m
      = .ok (some (kline_from_ws k2, { m with data := k2 :: rest })) := by
  unfold bybitNormalizers_ws klineNormalizer_ws
  simp only [hd, hc, if_true, h2, h1, hadj]

lemma c4msg_eval : bybitNormalizers_ws c4msg = .ok (some (c4kline, c4msg2)) := by
  have hp : get_timestamp_precision 1672304400000 = 1000 :=
    get_timestamp_precision_millis (by norm_num) (by norm_num)
  have hc : hasSubstr "kline".data ("kline.1.BTCUSDT".data) = true := by decide
  have h2 : (topicSplit "kline.1.BTCUSDT")[2]? = some "BTCUSDT" := by decide
  have h1 : (topicSplit "kline.1.BTCUSDT")[1]? = some "1" := by decide
  have e1 : ({ c4data with
      source? := some "bybit", s? := some "BTCUSDT",
      i? := some (get_streamforge_timeframe "1") } : WsKlineData).start
        = 1672304400000 := rfl
  have e2 : ({ c4data with
      source? := some "bybit", s? := some "BTCUSDT",
      i? := some (get_streamforge_timeframe "1") } : WsKlineData).«end»
        = 1672304459999 := rfl
  have hadj : adjust_bybit_timestamps { c4data with
      source? := some "bybit"
      s? := some "BTCUSDT"
      i? := some (get_streamforge_timeframe "1") } = .ok c4data2 := by
    rw [adjust_bybit_timestamps_some _ 1672304486868 rfl, e1, e2, hp]
    decide
  rw [klineNormalizer_ws_cons c4msg c4data [] "BTCUSDT" "1" c4data2 rfl hc h2 h1 hadj]
  decide

/-- C4, counterexample: on a valid Bybit kline message the first call
succeeds, but the second call on the same (mutated) message object raises
`KeyError: timestamp` — normalization is not idempotent. -/
theorem C4_counterexample :
    bybitNormalizers_ws c4msg = .ok (some (c4kline, c4msg2)) ∧
    bybitNormalizers_ws c4msg2 = .error "KeyError: timestamp" := by
  refine ⟨c4msg_eval, ?_⟩
  decide

/-- C4, witness for the amended theorem at the concrete valid message. -/
theorem C4_ws_second_call_raises_witness :
    bybitNormalizers_ws c4msg2 = .error "KeyError: timestamp" :=
  C4_ws_second_call_raises c4msg c4kline c4msg2 c4msg_eval

/-- A kline-shaped data element for the C8 messages. -/
def c8data : WsKlineData :=
  ⟨1672304400000, 1672304459999, "1", 2, 3, 1, 2, 5, 7, false,
    some 1672304486868, none, none, none⟩

/-- An unsupported topic that contains `"kline"` as a substring, with a
non-empty data array. -/
def c8badmsg : BybitWsMessage := ⟨some "klinex", [c8data]⟩

/-- A subscription ack / pong / heartbeat: no topic, no data. -/
def c8ack : BybitWsMessage := ⟨none, []⟩

/-- An unsupported topic without the `"kline"` substring. -/
def c8ticker : BybitWsMessage := ⟨some "tickers.BTCUSDT", [c8data]⟩

/-- C8, counterexample: a message with the unsupported topic `"klinex"` —
not a kline channel, but containing `"kline"` as a substring — and a
non-empty data array is routed to the kline normalizer and raises
`IndexError` instead of returning `None`. -/
theorem C8_counterexample :
    bybitNormalizers_ws c8badmsg = .error "IndexError" ∧
    hasSubstr "kline".data "klinex".data = true := by
  decide

/-- C8 (amended): the Bybit normalizer's ws entry point returns `None`
without raising for every message with an empty (or missing) data array and
for every message whose topic does not contain the substring `"kline"`
(subscription acks, pongs, heartbeats, other channels); but an unsupported
topic that does contain `"kline"` with a non-empty data array is routed to
the kline normalizer, which can raise. -/
theorem C8_non_kline_returns_none :
    (∀ m : BybitWsMessage, m.data = [] →
      bybitNormalizers_ws m = .ok none) ∧
    (∀ m : BybitWsMessage,
      hasSubstr "kline".data ((m.topic.getD "")).data = false →
      bybitNormalizers_ws m = .ok none) := by
  constructor
  · intro m hm
    rcases Bool.eq_false_or_eq_true
      (hasSubstr "kline".data ((m.topic.getD "")).data) with hc | hc
    · simp [bybitNormalizers_ws, klineNormalizer_ws, hc, hm]
    · simp [bybitNormalizers_ws, hc]
  · intro m hm
    simp [bybitNormalizers_ws, hm]

/-- C8, witness for the amended theorem: an ack (no topic, no data) and a
ticker message (non-kline topic, non-empty data) both normalize to `None`. -/
theorem C8_non_kline_returns_none_witness :
    bybitNormalizers_ws c8ack = .ok none ∧
    bybitNormalizers_ws c8ticker = .ok none :=
  ⟨C8_non_kline_returns_none.1 c8ack rfl,
   C8_non_kline_returns_none.2 c8ticker (by decide)⟩

end StreamForge
